/-
  Verification of the keymaster core (Android system/keymaster snapshot)
  against its natural-language specification.

  Shallow embedding: the C++ functions relevant to the checked claims are
  translated into executable Lean definitions.  Machine integers are
  modelled as Nat (sizes are small enough that no overflow occurs except
  where reproduced explicitly); fallible code returns Except.
-/
import Mathlib

namespace Keymaster

/-! ## Error codes (keymaster_error_t, subset used by the modelled code) -/

inductive KmError where
  | ok
  | unsupportedKeySize
  | unsupportedMacLength
  | unsupportedDigest
  | unsupportedTag
  | unsupportedPurpose
  | invalidTag
  | invalidDsaParams
  | invalidOperationHandle
  | importParameterMismatch
  | tooManyOperations
  | memoryAllocationFailed
  | unknownError
deriving DecidableEq, Repr

/-! ## Algorithms, digests, origins (keymaster_defs.h enums, as abstract inductives) -/

inductive KmAlgorithm where
  | rsa | dsa | ecdsa | aes | hmac
deriving DecidableEq, Repr

inductive KmDigest where
  | digestNone | md5 | sha1 | sha224 | sha256 | sha384 | sha512
deriving DecidableEq, Repr

inductive KmOrigin where
  | hardware | software | imported
deriving DecidableEq, Repr

/-! ## Authorizations

keymaster_key_param_t is a tagged union: the tag determines which union
member holds the value.  We model an authorization as an inductive whose
constructors carry exactly the value type the C tag declares.  otherAuth
stands for every tag the modelled code does not inspect specially
(PURPOSE, USER_ID, AUTH_TIMEOUT, ...), identified by its numeric code. -/

inductive KmAuth where
  | algorithm (a : KmAlgorithm)
  | keySize (bits : Nat)
  | rsaPublicExponent (e : Nat)
  | dsaGenerator (g : List Nat)
  | dsaP (p : List Nat)
  | dsaQ (q : List Nat)
  | digest (d : KmDigest)
  | macLength (bits : Nat)
  | applicationId (b : List Nat)
  | applicationData (b : List Nat)
  | rootOfTrust (b : List Nat)
  | origin (o : KmOrigin)
  | rollbackResistant (b : Bool)
  | creationDatetime (t : Nat)
  | otherAuth (code : Nat) (payload : Nat)
deriving DecidableEq, Repr

/-- An AuthorizationSet is an ordered, duplicate-preserving sequence of
authorizations (spec section 3.3); the implementation file
authorization_set.cpp is not part of the sources, so lookup and append
follow the spec: AuthorizationSet.GetTagValue finds the first occurrence
of a tag, push_back appends at the end. -/
abbrev AuthSet := List KmAuth

/-- First-occurrence lookup of TAG_KEY_SIZE (AuthorizationSet.GetTagValue). -/
def getKeySize : AuthSet → Option Nat
  | [] => none
  | .keySize n :: _ => some n
  | _ :: rest => getKeySize rest

/-- First-occurrence lookup of TAG_RSA_PUBLIC_EXPONENT. -/
def getRsaPublicExponent : AuthSet → Option Nat
  | [] => none
  | .rsaPublicExponent e :: _ => some e
  | _ :: rest => getRsaPublicExponent rest

/-- First-occurrence lookup of TAG_ALGORITHM. -/
def getAlgorithm : AuthSet → Option KmAlgorithm
  | [] => none
  | .algorithm a :: _ => some a
  | _ :: rest => getAlgorithm rest

/-- First-occurrence lookup of TAG_DIGEST. -/
def getDigest : AuthSet → Option KmDigest
  | [] => none
  | .digest d :: _ => some d
  | _ :: rest => getDigest rest

/-- First-occurrence lookup of TAG_MAC_LENGTH. -/
def getMacLength : AuthSet → Option Nat
  | [] => none
  | .macLength n :: _ => some n
  | _ :: rest => getMacLength rest

/-- First-occurrence lookup of TAG_DSA_GENERATOR (GetDsaParamData). -/
def getDsaGenerator : AuthSet → Option (List Nat)
  | [] => none
  | .dsaGenerator g :: _ => some g
  | _ :: rest => getDsaGenerator rest

/-- First-occurrence lookup of TAG_DSA_P (GetDsaParamData). -/
def getDsaP : AuthSet → Option (List Nat)
  | [] => none
  | .dsaP p :: _ => some p
  | _ :: rest => getDsaP rest

/-- First-occurrence lookup of TAG_DSA_Q (GetDsaParamData). -/
def getDsaQ : AuthSet → Option (List Nat)
  | [] => none
  | .dsaQ q :: _ => some q
  | _ :: rest => getDsaQ rest

/-! ## Message versioning (google_keymaster_messages.h)

The implementation reports version MAJOR_VER.MINOR_VER.SUBMINOR_VER =
1.0.0 (google_keymaster.cpp) and MAX_MESSAGE_VERSION = 1. -/

def MAJOR_VER : Nat := 1
def MINOR_VER : Nat := 0
def SUBMINOR_VER : Nat := 0
def MAX_MESSAGE_VERSION : Int := 1

/-- MessageVersion(major, minor, subminor): builds
composite = (major << 16) | (minor << 8) | subminor (uint8 inputs, so the
three fields do not overlap and the uint32 cannot overflow) and matches
it against the literals 0x000 and 0x100 exactly as the source does. -/
def MessageVersion (majorVer minorVer subminorVer : Nat) : Int :=
  let composite : Nat := (majorVer % 256) * 65536 + (minorVer % 256) * 256 + subminorVer % 256
  if composite = 0x000 then 0
  else if composite = 0x100 then 1
  else -1

/-! ## RSA key import (rsa_key.cpp, RsaKey::ImportKey)

The imported key is abstracted to its public exponent e (a bignum, an
arbitrary Nat) and its modulus size in bits.  The build is modelled as
LP64: BN_ULONG is 64 bits wide, so BN_set_word on the uint64 exponent tag
is exact and BN_get_word returns the exponent when it fits in 64 bits and
the all-ones mask otherwise. -/

structure RsaKeyData where
  modulusBits : Nat
  e : Nat
deriving DecidableEq, Repr

/-- RSA_size returns the modulus size in BYTES (BN_num_bytes of n). -/
def RSA_size (key : RsaKeyData) : Nat := (key.modulusBits + 7) / 8

/-- BN_get_word: the bignum value if it fits in a 64-bit word, else BN_MASK2. -/
def BN_get_word (e : Nat) : Nat := if e < 2 ^ 64 then e else 2 ^ 64 - 1

/-- RsaKey::ImportKey (rsa_key.cpp lines 63-122).  Checks the optional
RSA_PUBLIC_EXPONENT, KEY_SIZE and ALGORITHM tags of the key description
against the imported key, appending any absent one, in the order of the
source.  Note that the KEY_SIZE check compares the tag against
RSA_size(key) — the modulus size in BYTES — while the absent-tag branch
appends RSA_size(key) * 8, the size in bits. -/
def RsaKey.ImportKey (keyDescription : AuthSet) (key : RsaKeyData) :
    Except KmError AuthSet := do
  let auths := keyDescription
  let auths ←
    match getRsaPublicExponent auths with
    | some publicExponent =>
        -- public_exponent specified, make sure it matches the key
        if publicExponent ≠ key.e then
          throw KmError.importParameterMismatch
        else
          pure auths
    | none =>
        -- public_exponent not specified, use the one from the key
        let publicExponent := BN_get_word key.e
        if publicExponent = 0xffffffff then
          throw KmError.importParameterMismatch
        else
          pure (auths ++ [KmAuth.rsaPublicExponent publicExponent])
  let auths ←
    match getKeySize auths with
    | some keySize =>
        -- key_size specified, make sure it matches the key
        if RSA_size key ≠ keySize then
          throw KmError.importParameterMismatch
        else
          pure auths
    | none =>
        pure (auths ++ [KmAuth.keySize (RSA_size key * 8)])
  match getAlgorithm auths with
  | some algorithm =>
      if algorithm ≠ KmAlgorithm.rsa then
        throw KmError.importParameterMismatch
      else
        pure auths
  | none =>
      pure (auths ++ [KmAuth.algorithm KmAlgorithm.rsa])

/-! ## ECDSA key generation (ec_key.cpp, EcdsaKeyFactory)

The repository holds two variants of the ECDSA factory.  The current one
(EcdsaKeyFactory, with ECDSA_DEFAULT_KEY_SIZE = 224 and no 192-bit curve)
is modelled here; the older EcdsaKey variant from asymmetric_key.cpp
(default 192, with the 192-bit curve) is modelled separately below. -/

inductive EcCurve where
  | prime192v1 | secp224r1 | prime256v1 | secp384r1 | secp521r1
deriving DecidableEq, Repr

def ECDSA_DEFAULT_KEY_SIZE : Nat := 224

/-- EcdsaKeyFactory::choose_group: maps a key size in bits to the named
curve, NULL (none) for any unlisted size.  192 is NOT in this table. -/
def EcdsaKeyFactory.choose_group : Nat → Option EcCurve
  | 224 => some EcCurve.secp224r1
  | 256 => some EcCurve.prime256v1
  | 384 => some EcCurve.secp384r1
  | 521 => some EcCurve.secp521r1
  | _ => none

/-- EcdsaKeyFactory::GenerateKey: reads KEY_SIZE (appending the default
224 when absent), chooses the curve group, and generates the key.
backendOk stands for the EC_KEY_set_group / EC_KEY_generate_key /
EC_KEY_check_key backend calls succeeding. -/
def EcdsaKeyFactory.GenerateKey (keyDescription : AuthSet) (backendOk : Bool) :
    Except KmError (EcCurve × AuthSet) :=
  let (keySize, authorizations) :=
    match getKeySize keyDescription with
    | some n => (n, keyDescription)
    | none => (ECDSA_DEFAULT_KEY_SIZE,
               keyDescription ++ [KmAuth.keySize ECDSA_DEFAULT_KEY_SIZE])
  match EcdsaKeyFactory.choose_group keySize with
  | none => throw KmError.unsupportedKeySize
  | some group =>
      if backendOk then
        pure (group, authorizations)
      else
        throw KmError.unknownError

/-- The older variant, asymmetric_key.cpp EcdsaKey::choose_group: it does
include the 192-bit curve. -/
def EcdsaKeyOld.choose_group : Nat → Option EcCurve
  | 192 => some EcCurve.prime192v1
  | 224 => some EcCurve.secp224r1
  | 256 => some EcCurve.prime256v1
  | 384 => some EcCurve.secp384r1
  | 521 => some EcCurve.secp521r1
  | _ => none

/-- The older variant's default key size (asymmetric_key.cpp line 35). -/
def ECDSA_DEFAULT_KEY_SIZE_old : Nat := 192

/-! ## DSA key generation (asymmetric_key.cpp, DsaKey::GenerateKey) -/

def DSA_DEFAULT_KEY_SIZE : Nat := 2048

/-- The KEY_SIZE handling of DsaKey::GenerateKey: read the tag, append
the default when absent. -/
def DsaKey.withDefaultKeySize (keyDescription : AuthSet) : AuthSet :=
  match getKeySize keyDescription with
  | some _ => keyDescription
  | none => keyDescription ++ [KmAuth.keySize DSA_DEFAULT_KEY_SIZE]

/-- DsaKey::GenerateKey (asymmetric_key.cpp lines 269-333).  The three
DSA parameter tags are read with GetDsaParamData; KEY_SIZE defaults to
2048 and is appended when absent.  generatedParams stands for the g, p, q
produced by DSA_generate_parameters_ex when all three tags are absent;
paramGenOk / keyGenOk stand for that call and DSA_generate_key
succeeding.  The result carries the DSA parameters actually installed in
the key alongside the final authorization list. -/
def DsaKey.GenerateKey (keyDescription : AuthSet)
    (generatedParams : List Nat × List Nat × List Nat)
    (paramGenOk keyGenOk : Bool) :
    Except KmError ((List Nat × List Nat × List Nat) × AuthSet) :=
  let gBlob := getDsaGenerator keyDescription
  let pBlob := getDsaP keyDescription
  let qBlob := getDsaQ keyDescription
  let authorizations := DsaKey.withDefaultKeySize keyDescription
  -- If anything goes wrong in the next section, it is a param problem
  match gBlob, pBlob, qBlob with
  | none, none, none =>
      if ¬ paramGenOk then
        throw KmError.invalidDsaParams
      else
        let (g, p, q) := generatedParams
        let authorizations := authorizations ++
          [KmAuth.dsaGenerator g, KmAuth.dsaP p, KmAuth.dsaQ q]
        if keyGenOk then
          pure ((g, p, q), authorizations)
        else
          throw KmError.unknownError
  | some g, some p, some q =>
      -- All params provided.  Use them.
      if keyGenOk then
        pure ((g, p, q), authorizations)
      else
        throw KmError.unknownError
  | _, _, _ =>
      -- Some DSA parameters provided.  Provide all or none.
      throw KmError.invalidDsaParams

/-! ## Tag classification for SetAuthorizations (google_keymaster.cpp) -/

inductive KmTagKind where
  | rejectedInvalid      -- KM_TAG_ROOT_OF_TRUST, KM_TAG_ORIGIN: cannot be client-specified
  | rejectedUnsupported  -- KM_TAG_ROLLBACK_RESISTANT: does not work
  | hidden               -- KM_TAG_APPLICATION_ID, KM_TAG_APPLICATION_DATA
  | copied               -- everything else
deriving DecidableEq, Repr

/-- The switch of GoogleKeymaster::SetAuthorizations, per authorization. -/
def tagKind : KmAuth → KmTagKind
  | KmAuth.rootOfTrust _ => KmTagKind.rejectedInvalid
  | KmAuth.origin _ => KmTagKind.rejectedInvalid
  | KmAuth.rollbackResistant _ => KmTagKind.rejectedUnsupported
  | KmAuth.applicationId _ => KmTagKind.hidden
  | KmAuth.applicationData _ => KmTagKind.hidden
  | _ => KmTagKind.copied

/-- AndroidSoftKeymaster::is_enforced: the software implementation
enforces no tag (android_softkeymaster.h line 35). -/
def is_enforced (_ : KmAuth) : Bool := false

/-- GoogleKeymaster::AddAuthorization: route one authorization into the
enforced or unenforced set according to is_enforced. -/
def AddAuthorization (auth : KmAuth) (enforced unenforced : AuthSet) :
    AuthSet × AuthSet :=
  if is_enforced auth then (enforced ++ [auth], unenforced)
  else (enforced, unenforced ++ [auth])

/-- The loop of GoogleKeymaster::SetAuthorizations over the key
description, threading the two accumulated sets. -/
def setAuthorizationsLoop : AuthSet → AuthSet → AuthSet →
    Except KmError (AuthSet × AuthSet)
  | [], enforced, unenforced => pure (enforced, unenforced)
  | auth :: rest, enforced, unenforced =>
      match tagKind auth with
      | KmTagKind.rejectedInvalid => throw KmError.invalidTag
      | KmTagKind.rejectedUnsupported => throw KmError.unsupportedTag
      | KmTagKind.hidden => setAuthorizationsLoop rest enforced unenforced
      | KmTagKind.copied =>
          let (enforced, unenforced) := AddAuthorization auth enforced unenforced
          setAuthorizationsLoop rest enforced unenforced

/-- GoogleKeymaster::SetAuthorizations (google_keymaster.cpp lines
586-623): screens the key description, then appends CREATION_DATETIME
(current time, passed as creationTime) and ORIGIN.  The is_valid checks
at the end only report allocation failures and are modelled as passing. -/
def SetAuthorizations (keyDescription : AuthSet) (origin : KmOrigin)
    (creationTime : Nat) : Except KmError (AuthSet × AuthSet) := do
  let (enforced, unenforced) ← setAuthorizationsLoop keyDescription [] []
  let (enforced, unenforced) :=
    AddAuthorization (KmAuth.creationDatetime creationTime) enforced unenforced
  let (enforced, unenforced) :=
    AddAuthorization (KmAuth.origin origin) enforced unenforced
  pure (enforced, unenforced)

/-- The error raised for the first authorization of the description that
SetAuthorizations rejects, if any (helper for stating the screening
behaviour: the loop stops at the first offending tag in list order). -/
def firstRejectError : AuthSet → Option KmError
  | [] => none
  | auth :: rest =>
      match tagKind auth with
      | KmTagKind.rejectedInvalid => some KmError.invalidTag
      | KmTagKind.rejectedUnsupported => some KmError.unsupportedTag
      | _ => firstRejectError rest

/-! ## HMAC operations (hmac_operation.cpp) -/

/-- EVP digest output length in bytes, for the digests the HMAC operation
constructor accepts (EVP_sha1 .. EVP_sha512). -/
def digestOutputBytes : KmDigest → Nat
  | KmDigest.sha1 => 20
  | KmDigest.sha224 => 28
  | KmDigest.sha256 => 32
  | KmDigest.sha384 => 48
  | KmDigest.sha512 => 64
  | _ => 0

structure HmacOperation where
  digest : KmDigest
  tagLengthBytes : Nat
deriving DecidableEq, Repr

/-- The HmacOperation constructor's digest screening: error_ is set to
UNSUPPORTED_DIGEST for KM_DIGEST_NONE and KM_DIGEST_MD5 (and the md ==
nullptr fallback), OK otherwise. -/
def hmacConstructorError (digest : KmDigest) : KmError :=
  match digest with
  | KmDigest.digestNone => KmError.unsupportedDigest
  | KmDigest.md5 => KmError.unsupportedDigest
  | _ => KmError.ok

/-- HmacOperationFactory::CreateOperation (hmac_operation.cpp lines
44-71): MAC_LENGTH is read from the Begin parameters (0 when absent) and
rejected if not a multiple of 8; the digest is read from the key's
authorizations (NONE when absent); the constructed operation's error_ is
reported.  HmacOperation::Begin then merely returns error_, which is OK
whenever CreateOperation returned the operation, so this function is the
whole Begin-time screening. -/
def HmacOperationFactory.CreateOperation (keyAuths beginParams : AuthSet) :
    Except KmError HmacOperation :=
  let tagLength := (getMacLength beginParams).getD 0
  if tagLength % 8 ≠ 0 then
    throw KmError.unsupportedMacLength
  else
    let digest := (getDigest keyAuths).getD KmDigest.digestNone
    let op : HmacOperation := ⟨digest, tagLength / 8⟩
    let err := hmacConstructorError digest
    if err ≠ KmError.ok then
      throw err
    else
      pure op

/-- The KM_PURPOSE_SIGN branch of HmacOperation::Finish (hmac_operation.cpp
lines 163-169): only here is the MAC length compared with the digest
output length (HMAC_Final's digest_len). -/
def HmacOperation.FinishSign (op : HmacOperation) : KmError :=
  if op.tagLengthBytes > digestOutputBytes op.digest then
    KmError.unsupportedMacLength
  else
    KmError.ok

/-! ## The operation table (google_keymaster.cpp lines 645-681)

One row of the table holds a 64-bit handle and an owned operation
pointer; operations are abstracted to opaque identifiers (Nat).  The
inner Update/Finish/Abort results of the operation objects are inputs to
the table-level functions. -/

structure OpTableEntry where
  handle : Nat
  operation : Option Nat
deriving DecidableEq, Repr

abbrev OpTable := List OpTableEntry

/-- Modelled from the spec: the OpTableEntry declaration lives in the
google_keymaster.h header that is absent from the sources; per spec
section 3.7, empty slots have handle 0 and no operation, which is the
initial state of every slot of the freshly constructed table. -/
def initTable (n : Nat) : OpTable := List.replicate n ⟨0, none⟩

/-- The linear scan of FindOperation: index of the first slot whose
stored handle matches. -/
def scanForHandle (opHandle : Nat) : OpTable → Option Nat
  | [] => none
  | e :: rest =>
      if e.handle = opHandle then some 0
      else (scanForHandle opHandle rest).map (· + 1)

/-- The linear scan of AddOperation: index of the first slot whose
operation pointer is NULL. -/
def firstEmptySlot : OpTable → Option Nat
  | [] => none
  | e :: rest =>
      if e.operation = none then some 0
      else (firstEmptySlot rest).map (· + 1)

/-- GoogleKeymaster::FindOperation: op_handle 0 is rejected up front;
otherwise a linear scan returns the first slot whose stored handle
matches.  We return the slot index. -/
def FindOperation (table : OpTable) (opHandle : Nat) : Option Nat :=
  if opHandle = 0 then none
  else scanForHandle opHandle table

/-- GoogleKeymaster::DeleteOperation: destroy the operation, zero the slot. -/
def DeleteOperation (table : OpTable) (i : Nat) : OpTable :=
  table.set i ⟨0, none⟩

/-- GoogleKeymaster::AddOperation: RAND_bytes draws sizeof(handle) = 8
random bytes (drawn = none models RAND_bytes failing, some r the drawn
64-bit value); a drawn 0 makes the call fail with UNKNOWN_ERROR; then the
first empty slot receives the operation, or TOO_MANY_OPERATIONS when the
fixed-size table has none.  Returns (error, allocated handle, table). -/
def AddOperation (table : OpTable) (drawn : Option Nat) (op : Nat) :
    KmError × Option Nat × OpTable :=
  match drawn with
  | none => (KmError.unknownError, none, table)
  | some opHandle =>
      if opHandle = 0 then
        -- Statistically vanishingly unlikely: indicates a broken RNG.
        (KmError.unknownError, none, table)
      else
        match firstEmptySlot table with
        | some i => (KmError.ok, some opHandle, table.set i ⟨opHandle, some op⟩)
        | none => (KmError.tooManyOperations, none, table)

/-- GoogleKeymaster::UpdateOperation: unknown handle reports
INVALID_OPERATION_HANDLE; the inner operation's Update result
(innerError) is reported, and any error invalidates the operation. -/
def UpdateOperation (table : OpTable) (opHandle : Nat) (innerError : KmError) :
    KmError × OpTable :=
  match FindOperation table opHandle with
  | none => (KmError.invalidOperationHandle, table)
  | some i =>
      if innerError ≠ KmError.ok then
        (innerError, DeleteOperation table i)
      else
        (innerError, table)

/-- GoogleKeymaster::FinishOperation: unknown handle reports
INVALID_OPERATION_HANDLE; otherwise the inner Finish result is reported
and the slot is released unconditionally. -/
def FinishOperation (table : OpTable) (opHandle : Nat) (innerError : KmError) :
    KmError × OpTable :=
  match FindOperation table opHandle with
  | none => (KmError.invalidOperationHandle, table)
  | some i => (innerError, DeleteOperation table i)

/-- GoogleKeymaster::AbortOperation: unknown handle reports
INVALID_OPERATION_HANDLE; otherwise the slot is released and the inner
Abort result is reported (the source returns the error when nonzero and
KM_ERROR_OK otherwise, which is the inner result either way). -/
def AbortOperation (table : OpTable) (opHandle : Nat) (innerError : KmError) :
    KmError × OpTable :=
  match FindOperation table opHandle with
  | none => (KmError.invalidOperationHandle, table)
  | some i => (innerError, DeleteOperation table i)

/-- One client-visible transition of the operation table. -/
def TableStep (table tableNext : OpTable) : Prop :=
  (∃ drawn op, tableNext = (AddOperation table drawn op).2.2) ∨
  (∃ h e, tableNext = (UpdateOperation table h e).2) ∨
  (∃ h e, tableNext = (FinishOperation table h e).2) ∨
  (∃ h e, tableNext = (AbortOperation table h e).2)

/-- Reachable operation-table states: any client call sequence from the
freshly constructed table of capacity n. -/
def TableReachable (n : Nat) (table : OpTable) : Prop :=
  Relation.ReflTransGen TableStep (initTable n) table

/-- The operation-table invariant: occupied slots carry a non-zero
handle, empty slots store handle 0. -/
def TableInv (table : OpTable) : Prop :=
  ∀ e ∈ table, (e.operation ≠ none → e.handle ≠ 0) ∧
               (e.operation = none → e.handle = 0)

/-! ## Key-blob sealing and the soft implementation's nonce
(android_softkeymaster.h, google_keymaster.cpp SerializeKey) -/

/-- AndroidSoftKeymaster::GenerateNonce writes a zero byte at every index
of the caller's buffer; the buffer's previous contents (arbitrary stack
bytes, modelled as the input list) are irrelevant. -/
def GenerateNonce (buffer : List Nat) : List Nat :=
  buffer.map (fun _ => 0)

/-- KeyBlob::NONCE_LENGTH.  Modelled from the spec: key_blob.h is absent
from the sources; spec section 3.5 fixes the AEAD nonce at 12 bytes. -/
def NONCE_LENGTH : Nat := 12

/-- 32-bit little-endian length prefix used in the blob wire layout. -/
def u32le (n : Nat) : List Nat :=
  [n % 256, n / 256 % 256, n / 65536 % 256, n / 16777216 % 256]

/-- Modelled from the spec: the UnencryptedKeyBlob seal operation
(key_blob.cpp / unencrypted_key_blob.cpp are absent from the sources).
Per spec sections 3.5 and 4.3 the blob is
nonce ++ enforced ++ unenforced ++ u32(len) ++ ciphertext ++ tag, where
the AEAD (an arbitrary deterministic function aead of master key, nonce,
associated data and plaintext, returning ciphertext and tag) is keyed by
the master key with associated data enforced ++ unenforced ++ hidden. -/
def sealKeyBlob (aead : List Nat → List Nat → List Nat → List Nat → List Nat × List Nat)
    (masterKey nonce enforcedSer unenforcedSer hiddenSer keyMaterial : List Nat) :
    List Nat :=
  let ad := enforcedSer ++ unenforcedSer ++ hiddenSer
  let (ciphertext, tag) := aead masterKey nonce ad keyMaterial
  nonce ++ enforcedSer ++ unenforcedSer ++ u32le keyMaterial.length ++
    ciphertext ++ tag

/-- GoogleKeymaster::SerializeKey's sealing step as executed by the soft
implementation: the nonce buffer (NONCE_LENGTH stack bytes of arbitrary
prior content, nonceBuffer) is filled by AndroidSoftKeymaster's
GenerateNonce and the blob is sealed with it. -/
def serializeKeySoft
    (aead : List Nat → List Nat → List Nat → List Nat → List Nat × List Nat)
    (nonceBuffer : List Nat)
    (masterKey enforcedSer unenforcedSer hiddenSer keyMaterial : List Nat) :
    List Nat :=
  sealKeyBlob aead masterKey (GenerateNonce nonceBuffer)
    enforcedSer unenforcedSer hiddenSer keyMaterial

/-! ## Theorems -/

/-- C1: the claim states that for RSA import a present KEY_SIZE tag
fails exactly when it differs from the modulus size in bits, and in
particular that importing a 1024-bit key with KEY_SIZE=1024 succeeds.
The code instead compares the tag against RSA_size — the modulus size in
BYTES — so a 1024-bit key (e = 65537) imported with KEY_SIZE=1024 is
rejected with IMPORT_PARAMETER_MISMATCH (first conjunct), even though the
same key imported without the tag has KEY_SIZE=1024 appended to its
authorizations (second conjunct), and the tag value the code actually
accepts for this key is the byte count 128 (third conjunct). -/
theorem rsa_import_key_size_bits_vs_bytes :
    RsaKey.ImportKey
        [KmAuth.algorithm KmAlgorithm.rsa, KmAuth.keySize 1024,
         KmAuth.rsaPublicExponent 65537] ⟨1024, 65537⟩ =
      Except.error KmError.importParameterMismatch ∧
    RsaKey.ImportKey
        [KmAuth.algorithm KmAlgorithm.rsa, KmAuth.rsaPublicExponent 65537]
        ⟨1024, 65537⟩ =
      Except.ok [KmAuth.algorithm KmAlgorithm.rsa,
                 KmAuth.rsaPublicExponent 65537, KmAuth.keySize 1024] ∧
    RsaKey.ImportKey
        [KmAuth.algorithm KmAlgorithm.rsa, KmAuth.keySize 128,
         KmAuth.rsaPublicExponent 65537] ⟨1024, 65537⟩ =
      Except.ok [KmAuth.algorithm KmAlgorithm.rsa, KmAuth.keySize 128,
                 KmAuth.rsaPublicExponent 65537] := by
  refine ⟨rfl, ?_, rfl⟩
  simp only [RsaKey.ImportKey, getRsaPublicExponent, getKeySize, getAlgorithm,
    BN_get_word, RSA_size]
  rfl

/-- C2: the claim states MessageVersion maps 0.0.0 to 0, 1.0.0 to 1 and
everything else to -1.  The composite version is
(major << 16) | (minor << 8) | subminor, but the case for message version
1 matches 0x100 — which is the composite of version 0.1.0, not of 1.0.0
(composite 0x10000).  So the implementation's own version 1.0.0
(MAJOR_VER.MINOR_VER.SUBMINOR_VER) yields -1 while the unintended triple
0.1.0 yields 1; 0.0.0 correctly yields 0. -/
theorem message_version_matches_wrong_composite :
    MessageVersion MAJOR_VER MINOR_VER SUBMINOR_VER = -1 ∧
    MessageVersion 1 0 0 = -1 ∧
    MessageVersion 0 1 0 = 1 ∧
    MessageVersion 0 0 0 = 0 := by
  decide

/-- C3 counterexample: the claim states that KEY_SIZE 192 selects
prime192v1 and generation succeeds.  In the source EcdsaKeyFactory
(ec_key.cpp), choose_group has no case for 192, so generating with
KEY_SIZE=192 fails with UNSUPPORTED_KEY_SIZE even with the crypto
backend succeeding. -/
theorem ecdsa_generate_192_unsupported :
    EcdsaKeyFactory.GenerateKey [KmAuth.keySize 192] true =
      Except.error KmError.unsupportedKeySize := by
  rfl

/-- C3 amended: KEY_SIZE values 224, 256, 384 and 521 each select the
corresponding named curve (224 to secp224r1, 256 to prime256v1, 384 to
secp384r1, 521 to secp521r1) and generation succeeds; every other
KEY_SIZE value — including 192 — makes GenerateKey fail with
UNSUPPORTED_KEY_SIZE; and when KEY_SIZE is absent the default 224 is used
and appended to the authorizations.  (The older EcdsaKey variant in
asymmetric_key.cpp did map 192 to prime192v1, with default size 192; the
last two conjuncts record that variant.) -/
theorem ecdsa_generate_key_size_dispatch (d : AuthSet) :
    (getKeySize d = none →
      EcdsaKeyFactory.GenerateKey d true =
        Except.ok (EcCurve.secp224r1, d ++ [KmAuth.keySize 224])) ∧
    (∀ n, getKeySize d = some n →
      EcdsaKeyFactory.GenerateKey d true =
        match EcdsaKeyFactory.choose_group n with
        | some group => Except.ok (group, d)
        | none => Except.error KmError.unsupportedKeySize) ∧
    EcdsaKeyFactory.choose_group 224 = some EcCurve.secp224r1 ∧
    EcdsaKeyFactory.choose_group 256 = some EcCurve.prime256v1 ∧
    EcdsaKeyFactory.choose_group 384 = some EcCurve.secp384r1 ∧
    EcdsaKeyFactory.choose_group 521 = some EcCurve.secp521r1 ∧
    (∀ n, n ≠ 224 → n ≠ 256 → n ≠ 384 → n ≠ 521 →
      EcdsaKeyFactory.choose_group n = none) ∧
    ECDSA_DEFAULT_KEY_SIZE = 224 ∧
    EcdsaKeyOld.choose_group 192 = some EcCurve.prime192v1 ∧
    ECDSA_DEFAULT_KEY_SIZE_old = 192 := by
  refine ⟨?_, ?_, rfl, rfl, rfl, rfl, ?_, rfl, rfl, rfl⟩
  · intro hnone
    unfold EcdsaKeyFactory.GenerateKey
    rw [hnone]
    rfl
  · intro n hsome
    cases hc : EcdsaKeyFactory.choose_group n <;>
      simp only [EcdsaKeyFactory.GenerateKey, hsome, hc] <;> rfl
  · intro n h224 h256 h384 h521
    unfold EcdsaKeyFactory.choose_group
    split <;> simp_all

/-- Witness for ecdsa_generate_key_size_dispatch: concrete instances of
the hypothesis-bearing conjuncts at KEY_SIZE 521 and 190. -/
theorem ecdsa_generate_key_size_dispatch_witness :
    EcdsaKeyFactory.GenerateKey [KmAuth.keySize 521] true =
      Except.ok (EcCurve.secp521r1, [KmAuth.keySize 521]) ∧
    EcdsaKeyFactory.choose_group 190 = none ∧
    EcdsaKeyFactory.GenerateKey [] true =
      Except.ok (EcCurve.secp224r1, [KmAuth.keySize 224]) := by
  refine ⟨?_, ?_, ?_⟩
  · exact (ecdsa_generate_key_size_dispatch [KmAuth.keySize 521]).2.1 521 rfl
  · exact (ecdsa_generate_key_size_dispatch []).2.2.2.2.2.2.1 190
      (by decide) (by decide) (by decide) (by decide)
  · exact (ecdsa_generate_key_size_dispatch []).1 rfl

/-- The SetAuthorizations loop with no rejected tag in the description
copies exactly the non-hidden authorizations, in order, into the
unenforced accumulator (is_enforced is constantly false in the software
implementation, so the enforced accumulator never grows). -/
lemma setAuthorizationsLoop_ok (d : AuthSet) :
    ∀ enf unenf, firstRejectError d = none →
    setAuthorizationsLoop d enf unenf =
      Except.ok (enf, unenf ++ d.filter (fun a => tagKind a = KmTagKind.copied)) := by
  induction d with
  | nil =>
      intro enf unenf _
      simp only [setAuthorizationsLoop, List.filter_nil, List.append_nil]
      rfl
  | cons a rest ih =>
      intro enf unenf h
      unfold firstRejectError at h
      unfold setAuthorizationsLoop
      cases hk : tagKind a <;> simp only [hk] at h ⊢
      · exact absurd h (by simp)
      · exact absurd h (by simp)
      · rw [ih enf unenf h]
        simp [List.filter_cons, hk]
      · unfold AddAuthorization
        simp only [is_enforced, Bool.false_eq_true, if_false]
        rw [ih enf (unenf ++ [a]) h]
        simp [List.filter_cons, hk]

/-- The SetAuthorizations loop stops at the first rejected tag of the
description, raising INVALID_TAG for ROOT_OF_TRUST / ORIGIN and
UNSUPPORTED_TAG for ROLLBACK_RESISTANT. -/
lemma setAuthorizationsLoop_err (d : AuthSet) :
    ∀ enf unenf err, firstRejectError d = some err →
    setAuthorizationsLoop d enf unenf = Except.error err := by
  induction d with
  | nil =>
      intro enf unenf err h
      simp [firstRejectError] at h
  | cons a rest ih =>
      intro enf unenf err h
      unfold firstRejectError at h
      unfold setAuthorizationsLoop
      cases hk : tagKind a <;> simp only [hk] at h ⊢
      · simp only [Option.some_inj] at h
        rw [← h]
        rfl
      · simp only [Option.some_inj] at h
        rw [← h]
        rfl
      · exact ih enf unenf err h
      · unfold AddAuthorization
        simp only [is_enforced, Bool.false_eq_true, if_false]
        exact ih enf (unenf ++ [a]) err h

/-- C4 counterexample: the claim asserts that a description containing
ROOT_OF_TRUST fails with INVALID_TAG, and one containing
ROLLBACK_RESISTANT fails with UNSUPPORTED_TAG.  On the description
[ROLLBACK_RESISTANT, ROOT_OF_TRUST], which contains both,
SetAuthorizations returns UNSUPPORTED_TAG — the first offending tag in
list order wins — so the call does not fail with INVALID_TAG as the
ROOT_OF_TRUST clause of the claim requires. -/
theorem set_authorizations_first_offender_wins :
    SetAuthorizations [KmAuth.rollbackResistant true, KmAuth.rootOfTrust []]
        KmOrigin.software 0 = Except.error KmError.unsupportedTag ∧
    KmError.unsupportedTag ≠ KmError.invalidTag := by
  exact ⟨rfl, by decide⟩

/-- C4 amended: for every key description D, if D contains ROOT_OF_TRUST,
ORIGIN or ROLLBACK_RESISTANT then the call fails with the error of the
FIRST such tag in D's order (INVALID_TAG for ROOT_OF_TRUST / ORIGIN,
UNSUPPORTED_TAG for ROLLBACK_RESISTANT); otherwise the enforced set is
empty (software mode: is_enforced is constantly false) and the unenforced
set equals D with APPLICATION_ID and APPLICATION_DATA removed, followed
by CREATION_DATETIME and ORIGIN.  (Derived defaults are part of the key's
authorization list D that the factories pass in.) -/
theorem set_authorizations_screening (d : AuthSet) (o : KmOrigin) (t : Nat) :
    match firstRejectError d with
    | some err => SetAuthorizations d o t = Except.error err
    | none => SetAuthorizations d o t =
        Except.ok ([],
          d.filter (fun a => tagKind a = KmTagKind.copied) ++
            [KmAuth.creationDatetime t, KmAuth.origin o]) := by
  cases hr : firstRejectError d <;> simp only []
  · unfold SetAuthorizations
    rw [setAuthorizationsLoop_ok d [] [] hr]
    simp [AddAuthorization, is_enforced]
  · unfold SetAuthorizations
    rw [setAuthorizationsLoop_err d [] [] _ hr]
    rfl

/-- C7 counterexample: the claim states that a MAC_LENGTH exceeding the
digest output length makes Begin fail with UNSUPPORTED_MAC_LENGTH.  With
digest SHA1 (160-bit output) and MAC_LENGTH = 512 bits, the Begin-time
screening (HmacOperationFactory::CreateOperation followed by
HmacOperation::Begin) succeeds, because CreateOperation only checks
divisibility by 8; the excess length is not detected until Finish. -/
theorem hmac_begin_accepts_excessive_mac_length :
    HmacOperationFactory.CreateOperation [KmAuth.digest KmDigest.sha1]
        [KmAuth.macLength 512] =
      Except.ok ⟨KmDigest.sha1, 64⟩ ∧
    512 > 8 * digestOutputBytes KmDigest.sha1 := by
  exact ⟨rfl, by decide⟩

/-- C7 amended: for a supported digest, Begin fails with
UNSUPPORTED_MAC_LENGTH exactly when MAC_LENGTH (0 when the tag is
absent) is not a multiple of 8; a MAC_LENGTH that is a multiple of 8 but
exceeds the digest output length passes Begin, and the excess is
reported as UNSUPPORTED_MAC_LENGTH only by Finish of a SIGN operation. -/
theorem hmac_mac_length_checks (keyAuths beginParams : AuthSet) (d : KmDigest)
    (hd : getDigest keyAuths = some d)
    (hsupp : hmacConstructorError d = KmError.ok) :
    ((getMacLength beginParams).getD 0 % 8 ≠ 0 →
      HmacOperationFactory.CreateOperation keyAuths beginParams =
        Except.error KmError.unsupportedMacLength) ∧
    ((getMacLength beginParams).getD 0 % 8 = 0 →
      HmacOperationFactory.CreateOperation keyAuths beginParams =
        Except.ok ⟨d, (getMacLength beginParams).getD 0 / 8⟩) ∧
    (HmacOperation.FinishSign ⟨d, (getMacLength beginParams).getD 0 / 8⟩ =
        KmError.ok ↔
      (getMacLength beginParams).getD 0 / 8 ≤ digestOutputBytes d) ∧
    ((getMacLength beginParams).getD 0 / 8 > digestOutputBytes d →
      HmacOperation.FinishSign ⟨d, (getMacLength beginParams).getD 0 / 8⟩ =
        KmError.unsupportedMacLength) := by
  refine ⟨?_, ?_, ?_, ?_⟩
  · intro hm
    simp only [HmacOperationFactory.CreateOperation, hm, ne_eq,
      not_false_eq_true, if_true]
    rfl
  · intro hm
    simp only [HmacOperationFactory.CreateOperation, hm, ne_eq,
      not_true_eq_false, if_false, hd, Option.getD_some, hsupp,
      not_false_eq_true, if_true]
    rfl
  · unfold HmacOperation.FinishSign
    constructor
    · intro hfin
      by_contra hgt
      simp [Nat.lt_of_not_le hgt] at hfin
    · intro hle
      simp [Nat.not_lt_of_le hle]
  · intro hgt
    simp [HmacOperation.FinishSign, hgt]

/-- Witness for hmac_mac_length_checks: SHA-256 key, MAC_LENGTH 256 bits
(a multiple of 8 equal to the digest output), concrete conclusions. -/
theorem hmac_mac_length_checks_witness :
    HmacOperationFactory.CreateOperation [KmAuth.digest KmDigest.sha256]
        [KmAuth.macLength 256] = Except.ok ⟨KmDigest.sha256, 32⟩ ∧
    HmacOperation.FinishSign ⟨KmDigest.sha256, 32⟩ = KmError.ok := by
  have h := hmac_mac_length_checks [KmAuth.digest KmDigest.sha256]
    [KmAuth.macLength 256] KmDigest.sha256 rfl rfl
  exact ⟨h.2.1 (by decide), (h.2.2.1).2 (by decide)⟩

/-- C8: for DSA key generation with the optional DSA_GENERATOR, DSA_P,
DSA_Q tags, with the crypto backend succeeding: all three absent means
parameters are generated for the requested key size and g, p, q are
appended to the authorization set; all three present means they are used
directly as the key's parameters; one or two present fails with
INVALID_DSA_PARAMS. -/
theorem dsa_generate_key_param_cases (d : AuthSet) (G P Q : List Nat) :
    (getDsaGenerator d = none → getDsaP d = none → getDsaQ d = none →
      DsaKey.GenerateKey d (G, P, Q) true true =
        Except.ok ((G, P, Q),
          DsaKey.withDefaultKeySize d ++
            [KmAuth.dsaGenerator G, KmAuth.dsaP P, KmAuth.dsaQ Q])) ∧
    (∀ g p q, getDsaGenerator d = some g → getDsaP d = some p →
      getDsaQ d = some q →
      DsaKey.GenerateKey d (G, P, Q) true true =
        Except.ok ((g, p, q), DsaKey.withDefaultKeySize d)) ∧
    (((getDsaGenerator d).isSome ∨ (getDsaP d).isSome ∨ (getDsaQ d).isSome) →
      ¬((getDsaGenerator d).isSome ∧ (getDsaP d).isSome ∧ (getDsaQ d).isSome) →
      DsaKey.GenerateKey d (G, P, Q) true true =
        Except.error KmError.invalidDsaParams) := by
  refine ⟨?_, ?_, ?_⟩
  · intro hg hp hq
    simp only [DsaKey.GenerateKey, hg, hp, hq, Bool.not_true, if_false,
      Bool.false_eq_true, if_true]
    rfl
  · intro g p q hg hp hq
    simp only [DsaKey.GenerateKey, hg, hp, hq]
    rfl
  · intro hsome hnotall
    unfold DsaKey.GenerateKey
    cases hg : getDsaGenerator d <;> cases hp : getDsaP d <;>
      cases hq : getDsaQ d <;> simp [hg, hp, hq] at hsome hnotall ⊢ <;> rfl

/-- Witness for dsa_generate_key_param_cases: the all-absent, all-present
and p-q-only cases at concrete descriptions. -/
theorem dsa_generate_key_param_cases_witness :
    DsaKey.GenerateKey [] ([2], [3], [5]) true true =
      Except.ok (([2], [3], [5]),
        [KmAuth.keySize 2048, KmAuth.dsaGenerator [2], KmAuth.dsaP [3],
         KmAuth.dsaQ [5]]) ∧
    DsaKey.GenerateKey
        [KmAuth.dsaGenerator [7], KmAuth.dsaP [11], KmAuth.dsaQ [13],
         KmAuth.keySize 1024] ([2], [3], [5]) true true =
      Except.ok (([7], [11], [13]),
        [KmAuth.dsaGenerator [7], KmAuth.dsaP [11], KmAuth.dsaQ [13],
         KmAuth.keySize 1024]) ∧
    DsaKey.GenerateKey [KmAuth.dsaP [11], KmAuth.dsaQ [13]]
        ([2], [3], [5]) true true =
      Except.error KmError.invalidDsaParams := by
  refine ⟨?_, ?_, ?_⟩
  · exact (dsa_generate_key_param_cases [] [2] [3] [5]).1 rfl rfl rfl
  · exact (dsa_generate_key_param_cases _ [2] [3] [5]).2.1 [7] [11] [13]
      rfl rfl rfl
  · exact (dsa_generate_key_param_cases _ [2] [3] [5]).2.2
      (by simp [getDsaP]) (by simp [getDsaGenerator])

/-- The FindOperation scan misses exactly when no slot stores the handle. -/
lemma scanForHandle_eq_none_iff (h : Nat) (t : OpTable) :
    scanForHandle h t = none ↔ ∀ e ∈ t, e.handle ≠ h := by
  induction t with
  | nil => simp [scanForHandle]
  | cons e rest ih =>
      unfold scanForHandle
      by_cases he : e.handle = h
      · simp [he]
      · simp [he, Option.map_eq_none', ih]

/-- Zeroing the slot FindOperation found removes the last slot carrying
the handle, provided the handle occupied at most one slot. -/
lemma scanForHandle_delete (h : Nat) (h0 : h ≠ 0) :
    ∀ (t : OpTable) (i : Nat),
    t.countP (fun e => e.handle = h) ≤ 1 →
    scanForHandle h t = some i →
    scanForHandle h (t.set i ⟨0, none⟩) = none := by
  intro t
  induction t with
  | nil =>
      intro i _ hs
      simp [scanForHandle] at hs
  | cons e rest ih =>
      intro i hc hs
      unfold scanForHandle at hs
      by_cases he : e.handle = h
      · simp only [he, if_true, Option.some_inj] at hs
        subst hs
        show scanForHandle h (⟨0, none⟩ :: rest) = none
        unfold scanForHandle
        rw [if_neg (fun hh => h0 hh.symm)]
        have hcrest : rest.countP (fun e => e.handle = h) = 0 := by
          rw [List.countP_cons_of_pos _ _ (by simpa using he)] at hc
          omega
        have hall : ∀ x ∈ rest, x.handle ≠ h := by
          intro x hx
          have := List.countP_eq_zero.mp hcrest x hx
          simpa using this
        rw [(scanForHandle_eq_none_iff h rest).mpr hall]
        rfl
      · simp only [he, if_false] at hs
        obtain ⟨j, hj, rfl⟩ := Option.map_eq_some'.mp hs
        show scanForHandle h (e :: rest.set j ⟨0, none⟩) = none
        unfold scanForHandle
        rw [if_neg he]
        have hcrest : rest.countP (fun e => e.handle = h) ≤ 1 := by
          rw [List.countP_cons] at hc
          omega
        rw [ih j hcrest hj]
        rfl

/-- Writing a slot whose new handle differs from h cannot make a missing
handle h appear. -/
lemma scanForHandle_set_none (h : Nat) (t : OpTable) (i : Nat)
    (v : OpTableEntry) (hv : v.handle ≠ h) (ht : scanForHandle h t = none) :
    scanForHandle h (t.set i v) = none := by
  rw [scanForHandle_eq_none_iff] at ht ⊢
  intro e he
  rcases List.mem_or_eq_of_mem_set he with hmem | rfl
  · exact ht e hmem
  · exact hv

/-- FindOperation never matches handle 0 (the explicit guard). -/
lemma FindOperation_zero (t : OpTable) : FindOperation t 0 = none := by
  simp [FindOperation]

/-- Releasing the slot FindOperation located leaves no slot with that
handle, if the handle occupied at most one slot. -/
lemma FindOperation_delete_self (t : OpTable) (h : Nat) (i : Nat)
    (hc : t.countP (fun e => e.handle = h) ≤ 1)
    (hf : FindOperation t h = some i) :
    FindOperation (DeleteOperation t i) h = none := by
  unfold FindOperation at hf ⊢
  by_cases h0 : h = 0
  · simp [h0] at hf
  · simp only [h0, if_false] at hf ⊢
    exact scanForHandle_delete h h0 t i hc hf

/-- Releasing any slot cannot make a missing handle appear. -/
lemma FindOperation_delete_other (t : OpTable) (h : Nat) (i : Nat)
    (hf : FindOperation t h = none) :
    FindOperation (DeleteOperation t i) h = none := by
  unfold FindOperation at hf ⊢
  by_cases h0 : h = 0
  · simp [h0]
  · simp only [h0, if_false] at hf ⊢
    exact scanForHandle_set_none h t i ⟨0, none⟩ (fun hh => h0 hh.symm) hf

/-- C5: once FinishOperation or AbortOperation returns for a handle h, or
UpdateOperation or FinishOperation returns any error for h, the table
slot holding h is released, and every subsequent Update, Finish or Abort
call with h returns INVALID_OPERATION_HANDLE (in particular a second
Abort on the released handle).  The hypothesis that h occupies at most
one slot holds in any run in which the RNG never re-draws a handle that
is still live — the spec's probabilistic handle-uniqueness reading; with
a colliding RNG two slots can share a handle and releasing one leaves
the other reachable.  The last three conjuncts show the release persists
across later calls on other handles and later allocations that do not
re-draw h. -/
theorem operation_handle_release (table : OpTable) (h : Nat) (e1 : KmError)
    (hc : table.countP (fun e => e.handle = h) ≤ 1) :
    (FindOperation (FinishOperation table h e1).2 h = none) ∧
    (FindOperation (AbortOperation table h e1).2 h = none) ∧
    (e1 ≠ KmError.ok → FindOperation (UpdateOperation table h e1).2 h = none) ∧
    (∀ (t : OpTable) (e2 : KmError), FindOperation t h = none →
      (UpdateOperation t h e2).1 = KmError.invalidOperationHandle ∧
      (FinishOperation t h e2).1 = KmError.invalidOperationHandle ∧
      (AbortOperation t h e2).1 = KmError.invalidOperationHandle) ∧
    (∀ (t : OpTable) (g : Nat) (e2 : KmError), FindOperation t h = none →
      FindOperation (UpdateOperation t g e2).2 h = none ∧
      FindOperation (FinishOperation t g e2).2 h = none ∧
      FindOperation (AbortOperation t g e2).2 h = none) ∧
    (∀ (t : OpTable) (drawn : Option Nat) (op : Nat),
      FindOperation t h = none → drawn ≠ some h →
      FindOperation (AddOperation t drawn op).2.2 h = none) := by
  have hdel : ∀ t2 : OpTable, FindOperation t2 h = none ∨
      (∃ i, FindOperation t2 h = some i) := by
    intro t2
    cases hf : FindOperation t2 h
    · exact Or.inl rfl
    · exact Or.inr ⟨_, rfl⟩
  refine ⟨?_, ?_, ?_, ?_, ?_, ?_⟩
  · unfold FinishOperation
    cases hf : FindOperation table h
    · simpa using hf
    · simpa using FindOperation_delete_self table h _ hc hf
  · unfold AbortOperation
    cases hf : FindOperation table h
    · simpa using hf
    · simpa using FindOperation_delete_self table h _ hc hf
  · intro he1
    unfold UpdateOperation
    cases hf : FindOperation table h
    · simpa using hf
    · simpa [he1] using FindOperation_delete_self table h _ hc hf
  · intro t e2 hf
    unfold UpdateOperation FinishOperation AbortOperation
    rw [hf]
    exact ⟨rfl, rfl, rfl⟩
  · intro t g e2 hf
    unfold UpdateOperation FinishOperation AbortOperation
    cases hg : FindOperation t g
    · exact ⟨hf, hf, hf⟩
    · refine ⟨?_, ?_, ?_⟩
      · by_cases he2 : e2 = KmError.ok <;>
          simp [he2, hf, FindOperation_delete_other t h _ hf]
      · simpa using FindOperation_delete_other t h _ hf
      · simpa using FindOperation_delete_other t h _ hf
  · intro t drawn op hf hdrawn
    unfold AddOperation
    match drawn with
    | none => exact hf
    | some r =>
        by_cases hr : r = 0
        · simp only [hr, if_true]
          exact hf
        · simp only [hr, if_false]
          cases hfe : firstEmptySlot t
          · exact hf
          · simp only []
            unfold FindOperation at hf ⊢
            by_cases h0 : h = 0
            · simp [h0]
            · simp only [h0, if_false] at hf ⊢
              refine scanForHandle_set_none h t _ ⟨r, some op⟩ ?_ hf
              intro hrh
              exact hdrawn (congrArg some hrh)

/-- Witness for operation_handle_release: a two-slot table whose first
slot holds handle 5; after Finish the handle is gone and a second Abort
reports INVALID_OPERATION_HANDLE. -/
theorem operation_handle_release_witness :
    FindOperation (FinishOperation [⟨5, some 1⟩, ⟨0, none⟩] 5 KmError.ok).2 5 =
      none ∧
    (AbortOperation (FinishOperation [⟨5, some 1⟩, ⟨0, none⟩] 5 KmError.ok).2 5
        KmError.ok).1 = KmError.invalidOperationHandle := by
  have hthm := operation_handle_release [⟨5, some 1⟩, ⟨0, none⟩] 5 KmError.ok
    (by decide)
  exact ⟨hthm.1, (hthm.2.2.2.1 _ KmError.ok hthm.1).2.2⟩

/-- C6 counterexample: the claim states that a drawn handle of 0 is
rejected and RETRIED.  In the source a drawn 0 makes AddOperation return
KM_ERROR_UNKNOWN_ERROR at once — no further draw, no slot written, no
handle allocated — even though an empty slot is available, so allocation
does not proceed as a retry would allow. -/
theorem add_operation_zero_draw_fails :
    AddOperation [⟨0, none⟩] (some 0) 7 =
      (KmError.unknownError, none, [⟨0, none⟩]) := by
  rfl

/-- C6 amended: AddOperation draws one 8-byte random value for the
handle; a RAND_bytes failure or a drawn 0 makes the call fail with
UNKNOWN_ERROR (no retry, table unchanged); otherwise the operation is
stored in the first empty slot and the non-zero drawn handle is
returned, and if no slot of the fixed-size table is empty the call
returns TOO_MANY_OPERATIONS. -/
theorem add_operation_characterization (t : OpTable) (r op : Nat)
    (hr : r ≠ 0) :
    AddOperation t none op = (KmError.unknownError, none, t) ∧
    AddOperation t (some 0) op = (KmError.unknownError, none, t) ∧
    AddOperation t (some r) op =
      (match firstEmptySlot t with
       | some i => (KmError.ok, some r, t.set i ⟨r, some op⟩)
       | none => (KmError.tooManyOperations, none, t)) := by
  refine ⟨rfl, rfl, ?_⟩
  unfold AddOperation
  simp only [hr, if_false]

/-- Witness for add_operation_characterization: a non-zero draw fills
the empty slot of a one-slot table, and fails on a full one-slot table. -/
theorem add_operation_characterization_witness :
    AddOperation [⟨0, none⟩] (some 3) 7 = (KmError.ok, some 3, [⟨3, some 7⟩]) ∧
    AddOperation [⟨4, some 9⟩] (some 3) 7 =
      (KmError.tooManyOperations, none, [⟨4, some 9⟩]) := by
  have h1 := (add_operation_characterization [⟨0, none⟩] 3 7 (by decide)).2.2
  have h2 := (add_operation_characterization [⟨4, some 9⟩] 3 7 (by decide)).2.2
  constructor
  · rw [h1]
    rfl
  · rw [h2]
    rfl

/-- One table step preserves the slot invariant. -/
lemma tableInv_step {t tn : OpTable} (hstep : TableStep t tn)
    (hinv : TableInv t) : TableInv tn := by
  have hset : ∀ (i : Nat) (v : OpTableEntry),
      ((v.operation ≠ none → v.handle ≠ 0) ∧ (v.operation = none → v.handle = 0)) →
      TableInv (t.set i v) := by
    intro i v hv e he
    rcases List.mem_or_eq_of_mem_set he with hmem | rfl
    · exact hinv e hmem
    · exact hv
  rcases hstep with ⟨drawn, op, rfl⟩ | ⟨h, e, rfl⟩ | ⟨h, e, rfl⟩ | ⟨h, e, rfl⟩
  · unfold AddOperation
    match drawn with
    | none => exact hinv
    | some r =>
        by_cases hr : r = 0
        · simp only [hr, if_true]
          exact hinv
        · simp only [hr, if_false]
          cases hfe : firstEmptySlot t
          · exact hinv
          · exact hset _ ⟨r, some op⟩ ⟨fun _ => hr, fun hcontra => by cases hcontra⟩
  · unfold UpdateOperation
    cases hf : FindOperation t h
    · exact hinv
    · by_cases he : e = KmError.ok
      · simp only [he, ne_eq, not_true_eq_false, if_false]
        exact hinv
      · simp only [ne_eq, he, not_false_eq_true, if_true]
        exact hset _ ⟨0, none⟩ ⟨fun hcontra => absurd rfl hcontra, fun _ => rfl⟩
  · unfold FinishOperation
    cases hf : FindOperation t h
    · exact hinv
    · exact hset _ ⟨0, none⟩ ⟨fun hcontra => absurd rfl hcontra, fun _ => rfl⟩
  · unfold AbortOperation
    cases hf : FindOperation t h
    · exact hinv
    · exact hset _ ⟨0, none⟩ ⟨fun hcontra => absurd rfl hcontra, fun _ => rfl⟩

/-- C10: in every reachable operation-table state, every occupied slot
has a non-zero handle and every empty slot stores handle 0;
FindOperation(0) always returns NULL thanks to the explicit op_handle==0
guard; hence Update, Finish or Abort called with op_handle 0 always
returns INVALID_OPERATION_HANDLE and never dispatches to an empty slot,
even though empty slots store handle value 0. -/
theorem op_table_zero_handle_safe (n : Nat) (table : OpTable)
    (hr : TableReachable n table) :
    TableInv table ∧
    FindOperation table 0 = none ∧
    (∀ e, (UpdateOperation table 0 e).1 = KmError.invalidOperationHandle) ∧
    (∀ e, (FinishOperation table 0 e).1 = KmError.invalidOperationHandle) ∧
    (∀ e, (AbortOperation table 0 e).1 = KmError.invalidOperationHandle) := by
  have hinv : TableInv table := by
    induction hr with
    | refl =>
        intro e he
        have := List.eq_of_mem_replicate he
        subst this
        exact ⟨fun hcontra => absurd rfl hcontra, fun _ => rfl⟩
    | tail _ hstep ih => exact tableInv_step hstep ih
  have hfind : FindOperation table 0 = none := FindOperation_zero table
  refine ⟨hinv, hfind, ?_, ?_, ?_⟩
  · intro e
    unfold UpdateOperation
    rw [hfind]
  · intro e
    unfold FinishOperation
    rw [hfind]
  · intro e
    unfold AbortOperation
    rw [hfind]

/-- Witness for op_table_zero_handle_safe: the freshly constructed
two-slot table is reachable and satisfies all conclusions. -/
theorem op_table_zero_handle_safe_witness :
    TableInv (initTable 2) ∧
    FindOperation (initTable 2) 0 = none ∧
    (UpdateOperation (initTable 2) 0 KmError.ok).1 =
      KmError.invalidOperationHandle := by
  have h := op_table_zero_handle_safe 2 (initTable 2) Relation.ReflTransGen.refl
  exact ⟨h.1, h.2.1, h.2.2.1 KmError.ok⟩

/-- GenerateNonce zeroes the whole buffer, whatever it held before. -/
lemma generateNonce_eq_replicate (buffer : List Nat) :
    GenerateNonce buffer = List.replicate buffer.length 0 := by
  induction buffer with
  | nil => rfl
  | cons b rest ih =>
      simp only [GenerateNonce, List.map_cons, List.length_cons,
        List.replicate_succ] at ih ⊢
      rw [ih]

/-- C9: AndroidSoftKeymaster::GenerateNonce writes only zero bytes for
every requested length (first conjunct, for a buffer of any length and
any prior contents), so every key blob sealed by the soft implementation
carries the identical all-zero 12-byte AEAD nonce (second conjunct), and
sealing the same key material and authorization sets twice is
deterministic: the blob does not depend on the nonce buffer's prior
contents, i.e. on any RNG state (third conjunct).  aead is the (fixed,
deterministic) AEAD primitive of the crypto backend. -/
theorem soft_keymaster_sealing_deterministic
    (aead : List Nat → List Nat → List Nat → List Nat → List Nat × List Nat)
    (buf1 buf2 masterKey enforcedSer unenforcedSer hiddenSer keyMaterial :
      List Nat)
    (h1 : buf1.length = NONCE_LENGTH) (h2 : buf2.length = NONCE_LENGTH) :
    (∀ buffer : List Nat,
      GenerateNonce buffer = List.replicate buffer.length 0) ∧
    (serializeKeySoft aead buf1 masterKey enforcedSer unenforcedSer hiddenSer
        keyMaterial).take NONCE_LENGTH = List.replicate NONCE_LENGTH 0 ∧
    serializeKeySoft aead buf1 masterKey enforcedSer unenforcedSer hiddenSer
        keyMaterial =
      serializeKeySoft aead buf2 masterKey enforcedSer unenforcedSer hiddenSer
        keyMaterial := by
  have hbuf : ∀ buffer : List Nat, buffer.length = NONCE_LENGTH →
      GenerateNonce buffer = List.replicate NONCE_LENGTH 0 := by
    intro buffer hlen
    rw [generateNonce_eq_replicate, hlen]
  refine ⟨generateNonce_eq_replicate, ?_, ?_⟩
  · unfold serializeKeySoft sealKeyBlob
    rw [hbuf buf1 h1]
    have hlen : (List.replicate NONCE_LENGTH 0).length = NONCE_LENGTH :=
      List.length_replicate NONCE_LENGTH 0
    cases haead : aead masterKey (List.replicate NONCE_LENGTH 0)
      (enforcedSer ++ unenforcedSer ++ hiddenSer) keyMaterial
    simp only [List.append_assoc]
    rw [List.take_append_of_le_length (le_of_eq hlen.symm),
      List.take_of_length_le (le_of_eq hlen)]
  · unfold serializeKeySoft
    rw [hbuf buf1 h1, hbuf buf2 h2]

/-- Witness for soft_keymaster_sealing_deterministic: two 12-byte nonce
buffers with different prior contents yield the same blob, shown for a
concrete (deterministic) aead function and concrete inputs. -/
theorem soft_keymaster_sealing_deterministic_witness :
    serializeKeySoft (fun _ _ _ k => (k, List.replicate 16 0))
        (List.replicate 12 7) [1] [2] [3] [4] [5, 6] =
      serializeKeySoft (fun _ _ _ k => (k, List.replicate 16 0))
        (List.replicate 12 9) [1] [2] [3] [4] [5, 6] := by
  exact (soft_keymaster_sealing_deterministic
    (fun _ _ _ k => (k, List.replicate 16 0))
    (List.replicate 12 7) (List.replicate 12 9) [1] [2] [3] [4] [5, 6]
    (by decide) (by decide)).2.2

end Keymaster
